import Mathlib

/-!
# Kontent content-type provider: client and resource adapter

A shallow embedding of `client/client.go` and `provider/resource_content_type.go`.

Conventions of the embedding:

* a Go `string` is a Lean `String`, a Go `error` is the `String` its `Error()` method returns;
* a Go `(T, error)` result that the caller only inspects through `err != nil` is an `Except`;
  where the caller goes on to use the returned pointer, the pair is kept as it is;
* the remote service is an arbitrary function from the history of requests sent so far to the
  result of `httpClient.Do`, and every operation threads the list of requests it has sent;
* code of the Go standard library that the repository only calls (`http.NewRequest`
  rejecting a URL, the JSON encoder and decoder) is a field of `Env`.
-/

namespace Kontent

/-! ## Strings -/

/-- Go's `strings.Contains` on the characters of the two strings: `sub` occurs in `l` as a
contiguous block. -/
def containsChars : List Char → List Char → Bool
  | [], sub => sub.isEmpty
  | c :: l, sub => sub.isPrefixOf (c :: l) || containsChars l sub

/-- Go function `strings.Contains(s, substr)`. -/
def stringsContains (s substr : String) : Bool :=
  containsChars s.data substr.data

/-- Go function `fmt.Sprintf("%v", n)` for an `int`: the decimal numeral. -/
def fmtInt (n : Int) : String := toString n

/-! ## The pattern of `validateCodeName` -/

/-- Regular expressions, as much of them as `regexp.MustCompile` is given in this repository. -/
inductive Regex where
  | empty : Regex
  | eps : Regex
  | cls : (Char → Bool) → Regex
  | seq : Regex → Regex → Regex
  | alt : Regex → Regex → Regex
  | star : Regex → Regex

/-- The expression matches the empty string. -/
def Regex.nullable : Regex → Bool
  | .empty => false
  | .eps => true
  | .cls _ => false
  | .seq r s => r.nullable && s.nullable
  | .alt r s => r.nullable || s.nullable
  | .star _ => true

/-- What is left of the expression after reading the character `c`. -/
def Regex.deriv (c : Char) : Regex → Regex
  | .empty => .empty
  | .eps => .empty
  | .cls p => if p c then .eps else .empty
  | .seq r s => if r.nullable then .alt (.seq (r.deriv c) s) (s.deriv c) else .seq (r.deriv c) s
  | .alt r s => .alt (r.deriv c) (s.deriv c)
  | .star r => .seq (r.deriv c) (.star r)

/-- Some initial segment of the input is matched by the expression. -/
def Regex.matchesAtStart : Regex → List Char → Bool
  | r, [] => r.nullable
  | r, c :: cs => r.nullable || (r.deriv c).matchesAtStart cs

/-- Go function `(*Regexp).Match`: the expression is not anchored, so it matches when some
segment of the input, starting anywhere, is matched. -/
def Regex.Match (r : Regex) : List Char → Bool
  | [] => r.matchesAtStart []
  | c :: cs => r.matchesAtStart (c :: cs) || r.Match cs

/-- The Perl class `\s` of Go's `regexp/syntax`: `[\t\n\f\r ]`. -/
def perlSpace (c : Char) : Bool :=
  c == '\t' || c == '\n' || c == '\x0c' || c == '\r' || c == ' '

/-- The pattern `\s+` compiled in `validateCodeName`: one `\s`, then any number of them. -/
def whiteSpace : Regex := .seq (.cls perlSpace) (.star (.cls perlSpace))

/-- Whitespace character in the sense of the specification's words, not of the code: a
character with Unicode's White_Space property, which is what Go's `unicode.IsSpace`
reports. Besides the five characters of `\s` it holds the vertical tab, NEL, the no-break
space and the spaces of the general punctuation block. -/
def unicodeIsSpace (c : Char) : Bool :=
  c == '\t' || c == '\n' || c == '\x0b' || c == '\x0c' || c == '\r' || c == ' ' ||
  c.toNat == 0x85 || c.toNat == 0xA0 || c.toNat == 0x1680 ||
  (0x2000 ≤ c.toNat && c.toNat ≤ 0x200A) ||
  c.toNat == 0x2028 || c.toNat == 0x2029 || c.toNat == 0x202F || c.toNat == 0x205F ||
  c.toNat == 0x3000

/-! ## Values of the host's attribute store -/

/-- An `interface{}` value as the host hands it over. -/
inductive Value where
  | str (s : String)
  | int (i : Int)
  | bool (b : Bool)
  | nil
  deriving DecidableEq, Repr

/-- Go function `fmt.Sprintf("%v", v)`. -/
def Value.sprintV : Value → String
  | .str s => s
  | .int i => fmtInt i
  | .bool true => "true"
  | .bool false => "false"
  | .nil => "<nil>"

/-- Go function `validateCodeName(v, k)`: the warnings and the errors (each error by its message). -/
def validateCodeName (v : Value) (_k : String) : List String × List String :=
  let errs : List String := []
  let warns : List String := []
  match v with
  | .str value =>
    if whiteSpace.Match value.data then
      (warns, errs ++ ["codename cannot contain whitespace. Got " ++ value])
    else
      (warns, errs)
  | _ => (warns, errs ++ ["expected codename to be string"])

/-! ## The API client (`client/client.go`) -/

/-- A string-keyed Go map. -/
abbrev GoMap := AList (fun _ : String => Value)

/-- The type `ContentType`. -/
structure ContentType where
  Id : String
  Name : String
  CodeName : String
  Elements : List GoMap

/-- The type `Client`: the API key and the project identifier. -/
structure Client where
  apiKey : String
  projectId : String

/-- An `http.Request`, as far as this client fills it in. Headers are in the order of the
`Header.Add` calls. -/
structure Request where
  method : String
  url : String
  headers : List (String × String)
  body : String
  deriving DecidableEq, Repr

/-- A response body: a stream that yields its text, or one whose reading fails. -/
inductive Body where
  | text (s : String)
  | unreadable
  deriving DecidableEq, Repr

/-- An `http.Response`: its status code and its body. -/
structure Response where
  statusCode : Int
  body : Body
  deriving DecidableEq, Repr

/-- What `httpClient.Do` returns: an error of the transport, or a response. -/
inductive DoResult where
  | transportError (msg : String)
  | response (resp : Response)
  deriving DecidableEq, Repr

/-- What the client takes from outside: the answer of `http.NewRequest` to a method and a
URL (`some` error when it refuses them), the JSON encoder and decoder of a `ContentType`, and
the remote service, which sees every request sent so far, the current one last. The last
field is a rendering of `fmt`. -/
structure Env where
  newRequestErr : String → String → Option String
  encodeContentType : ContentType → Except String String
  decodeContentType : Body → Except String ContentType
  transport : List Request → DoResult
  /-- The text `fmt` gives a pointer to a `ContentType` that is not `nil` under `%s`. -/
  sprintSContentType : ContentType → String

/-- Go function `Header.Add`. -/
def Request.addHeader (req : Request) (key value : String) : Request :=
  { req with headers := req.headers ++ [(key, value)] }

/-- Go function `requestPath`. -/
def Client.requestPath (c : Client) (path : String) : String :=
  "https://manage.kontent.ai/v2/projects/" ++ c.projectId ++ "/" ++ path

/-- The first half of `httpRequest` (lines 112-122): the request is built and its headers
are set. `http.NewRequest` reads an empty method as `GET`; the `switch` looks at the method
as it was passed. -/
def Client.buildRequest (env : Env) (c : Client) (path method body : String) :
    Except String Request :=
  match env.newRequestErr method (c.requestPath path) with
  | some err => .error err
  | none =>
    let req : Request :=
      { method := if method = "" then "GET" else method
        url := c.requestPath path
        headers := []
        body := body }
    let req := req.addHeader "Authorization" ("Bearer " ++ c.apiKey)
    if method = "GET" then .ok req
    else if method = "DELETE" then .ok req
    else .ok (req.addHeader "Content-Type" "application/json")

/-- Go function `httpRequest`: the body of the response or the error, and the requests sent so far. -/
def Client.httpRequest (env : Env) (c : Client) (log : List Request)
    (path method body : String) : Except String Body × List Request :=
  match c.buildRequest env path method body with
  | .error err => (.error err, log)
  | .ok req =>
    let log := log ++ [req]
    match env.transport log with
    | .transportError err => (.error err, log)
    | .response resp =>
      if resp.statusCode ≠ 200 ∧ resp.statusCode ≠ 201 ∧ resp.statusCode ≠ 204 then
        match resp.body with
        | .unreadable =>
          (.error ("got a non 200 status code: " ++ fmtInt resp.statusCode), log)
        | .text respBody =>
          (.error ("got a non 200 status code: " ++ fmtInt resp.statusCode ++ " - "
            ++ respBody), log)
      else (.ok resp.body, log)

/-- Go function `NewContentType`: the id the service assigned, or the error. -/
def Client.NewContentType (env : Env) (c : Client) (log : List Request)
    (contentType : ContentType) : Except String String × List Request :=
  match env.encodeContentType contentType with
  | .error err => (.error err, log)
  | .ok buf =>
    match c.httpRequest env log "types" "POST" buf with
    | (.error err, log) => (.error err, log)
    | (.ok response, log) =>
      match env.decodeContentType response with
      | .error err => (.error err, log)
      | .ok contentTypeResponse => (.ok contentTypeResponse.Id, log)

/-- Go function `GetContentType`: the pointer (`none` for `nil`) and the error (`none` for `nil`). -/
def Client.GetContentType (env : Env) (c : Client) (log : List Request) (id : String) :
    (Option ContentType × Option String) × List Request :=
  match c.httpRequest env log ("types/" ++ id) "GET" "" with
  | (.error err, log) => ((none, some err), log)
  | (.ok body, log) =>
    match env.decodeContentType body with
    | .error err => ((none, some err), log)
    | .ok contentType => ((some contentType, none), log)

/-- Go function `DeleteContentType`: the error, `none` for `nil`. -/
def Client.DeleteContentType (env : Env) (c : Client) (log : List Request) (id : String) :
    Option String × List Request :=
  match c.httpRequest env log ("types/" ++ id) "DELETE" "" with
  | (.error err, log) => (some err, log)
  | (.ok _, log) => (none, log)

/-- Go function `UpdateContentType`: the error (`none` for `nil`), the content type as the
call leaves it behind the pointer it was given, and the requests sent. -/
def Client.UpdateContentType (env : Env) (c : Client) (log : List Request)
    (contentType : ContentType) : (Option String × ContentType) × List Request :=
  match c.DeleteContentType env log contentType.Id with
  | (some err, log) => ((some err, contentType), log)
  | (none, log) =>
    match c.NewContentType env log contentType with
    | (.error err, log) => ((some err, contentType), log)
    | (.ok response, log) => ((none, { contentType with Id := response }), log)

/-! ## The resource adapter (`provider/resource_content_type.go`) -/

/-- One entry of the list `d.Get("elements")`, an `interface{}`: a map, or the nil value the
host hands over for an element that has no attribute. -/
inductive Item where
  | map (elem : GoMap)
  | nil

/-- The host's `schema.ResourceData` for one content type: the resource id (`d.Id()`,
`d.SetId`) and the three attributes (`d.Get`, `d.Set`). For the list attribute of the schema
`d.Get("elements")` is a `[]interface{}`, and for the two string attributes a `string`. -/
structure ResourceData where
  id : String
  name : String
  codename : String
  elements : List Item

/-- How a lifecycle hook ends: it returns its `error` (`none` for `nil`), or the Go runtime
stops it with a panic. -/
inductive Outcome where
  | returned (err : Option String)
  | panicked (reason : String)
  deriving DecidableEq, Repr

/-- The text of the panic of the type assertion `tfElement.(map[string]interface{})` at a
nil value. -/
def assertionPanic : String :=
  "interface conversion: interface \x7b\x7d is nil, not map[string]interface \x7b\x7d"

/-- The two loops of `resourceCreateContentType` (lines 67-78), `none` when the type
assertion `tfElement.(map[string]interface{})` panics. The inner loop writes
`elemDto[k] = fmt.Sprintf("%v", v)` for the entries of `elem`, the outer one appends
`elemDto` to `elements`. -/
def resourceCreateContentType.elements (tfElements : List Item) : Option (List GoMap) :=
  tfElements.foldl
    (fun (elements : Option (List GoMap)) tfElement =>
      match elements with
      | none => none
      | some elements =>
        match tfElement with
        | .nil => none
        | .map elem =>
          let elemDto : GoMap :=
            elem.entries.foldl (fun elemDto kv => elemDto.insert kv.1 (.str kv.2.sprintV)) ∅
          some (elements ++ [elemDto]))
    (some [])

/-- The `ContentType` that `resourceCreateContentType` builds (lines 67-84), `none` when a
type assertion of the loop panics. -/
def resourceCreateContentType.contentType (d : ResourceData) : Option ContentType :=
  match resourceCreateContentType.elements d.elements with
  | none => none
  | some elements =>
    some
      { Id := ""
        Name := d.name
        CodeName := d.codename
        Elements := elements }

/-- Go function `resourceCreateContentType`. -/
def resourceCreateContentType (env : Env) (c : Client) (log : List Request)
    (d : ResourceData) : Outcome × ResourceData × List Request :=
  match resourceCreateContentType.contentType d with
  | none => (.panicked assertionPanic, d, log)
  | some contentType =>
    match c.NewContentType env log contentType with
    | (.error err, log) => (.returned (some err), d, log)
    | (.ok id, log) => (.returned none, { d with id := id }, log)

/-- Go function `fmt.Sprintf("%s", contentType)` for a `*client.ContentType`: `fmt` has no
`%s` for a nil pointer and writes the bad-verb text. -/
def sprintSPtr (env : Env) : Option ContentType → String
  | none => "%!s(*client.ContentType=<nil>)"
  | some contentType => env.sprintSContentType contentType

/-- Go function `resourceReadContentType`. After the `if err != nil` block the fields of
`contentType` are read whatever the block did; reading them through the nil pointer is a
panic. The code drops what `d.Set` returns; the three attributes take the fetched values. -/
def resourceReadContentType (env : Env) (c : Client) (log : List Request)
    (d : ResourceData) : Outcome × ResourceData × List Request :=
  let contentTypeId := d.id
  match c.GetContentType env log contentTypeId with
  | ((contentType, err), log) =>
    let afterCheck : Except String ResourceData :=
      match err with
      | some err =>
        if stringsContains err "not found" then .ok { d with id := "" }
        else .error ("error finding content type with ID " ++ sprintSPtr env contentType)
      | none => .ok d
    match afterCheck with
    | .error err => (.returned (some err), d, log)
    | .ok d =>
      match contentType with
      | none => (.panicked "invalid memory address or nil pointer dereference", d, log)
      | some contentType =>
        (.returned none,
          { id := contentType.Id
            name := contentType.Name
            codename := contentType.CodeName
            elements := contentType.Elements.map Item.map }, log)

/-- The two loops of `resourceUpdateContentType` (lines 121-132), `none` when the type
assertion `tfElement.(map[string]interface{})` panics. -/
def resourceUpdateContentType.elements (tfElements : List Item) : Option (List GoMap) :=
  tfElements.foldl
    (fun (elements : Option (List GoMap)) tfElement =>
      match elements with
      | none => none
      | some elements =>
        match tfElement with
        | .nil => none
        | .map elem =>
          let elemDto : GoMap :=
            elem.entries.foldl (fun elemDto kv => elemDto.insert kv.1 (.str kv.2.sprintV)) ∅
          some (elements ++ [elemDto]))
    (some [])

/-- The `ContentType` that `resourceUpdateContentType` builds (lines 119-139), `none` when
a type assertion of the loop panics. -/
def resourceUpdateContentType.contentType (d : ResourceData) : Option ContentType :=
  let contentTypeId := d.id
  match resourceUpdateContentType.elements d.elements with
  | none => none
  | some elements =>
    some
      { Id := contentTypeId
        Name := d.name
        CodeName := d.codename
        Elements := elements }

/-- Go function `resourceUpdateContentType`. -/
def resourceUpdateContentType (env : Env) (c : Client) (log : List Request)
    (d : ResourceData) : Outcome × ResourceData × List Request :=
  match resourceUpdateContentType.contentType d with
  | none => (.panicked assertionPanic, d, log)
  | some contentType =>
    match c.UpdateContentType env log contentType with
    | ((some err, _), log) => (.returned (some err), d, log)
    | ((none, contentType), log) => (.returned none, { d with id := contentType.Id }, log)

/-- Go function `resourceDeleteContentType`. -/
def resourceDeleteContentType (env : Env) (c : Client) (log : List Request)
    (d : ResourceData) : Outcome × ResourceData × List Request :=
  let contentTypeId := d.id
  match c.DeleteContentType env log contentTypeId with
  | (some err, log) => (.returned (some err), d, log)
  | (none, log) => (.returned none, { d with id := "" }, log)

/-- Go function `resourceExistsContentType`: the boolean and the error. -/
def resourceExistsContentType (env : Env) (c : Client) (log : List Request)
    (d : ResourceData) : (Bool × Option String) × List Request :=
  let contentTypeId := d.id
  match c.GetContentType env log contentTypeId with
  | ((_, some err), log) => ((false, some err), log)
  | ((_, none), log) => ((true, none), log)

/-! ## Scenarios

Concrete services and codecs at which the operations are evaluated. The codec is a toy one:
a content type travels as its id alone. -/

/-- A content type with nothing but an id. -/
def bareContentType (id : String) : ContentType :=
  { Id := id, Name := "", CodeName := "", Elements := [] }

/-- An environment in which every request can be built, the codec is the toy one, and the
service is `transport`. -/
def scenario (transport : List Request → DoResult) : Env :=
  { newRequestErr := fun _ _ => none
    encodeContentType := fun contentType => .ok contentType.Id
    decodeContentType := fun body =>
      match body with
      | .text s => .ok (bareContentType s)
      | .unreadable => .error "unexpected EOF"
    transport := transport
    sprintSContentType := fun contentType => contentType.Id }

/-- A service that gives the same response to every request. -/
def always (statusCode : Int) (body : String) : List Request → DoResult :=
  fun _ => .response { statusCode := statusCode, body := .text body }

/-- A service that answers the first request with `first` and every later one with `later`. -/
def firstThen (first later : DoResult) : List Request → DoResult :=
  fun log => if log.length = 1 then first else later

/-- The client of the scenarios. -/
def someClient : Client := { apiKey := "secret", projectId := "p1" }

/-- The element of the scenarios: a text element called `title`. -/
def titleElement : GoMap :=
  (∅ : GoMap).insert "type" (.str "text") |>.insert "id" (.str "title")

/-- The resource of the scenarios: an article type with one text element, known to the
service as `abc123`. -/
def article : ResourceData :=
  { id := "abc123"
    name := "Article"
    codename := "article"
    elements := [.map titleElement] }

/-- The content type that an update of `article` hands to the client: the loop has written
the entries of `titleElement` into a fresh map one after the other. -/
def articleContentType : ContentType :=
  { Id := "abc123"
    Name := "Article"
    CodeName := "article"
    Elements := [(∅ : GoMap).insert "id" (.str "title") |>.insert "type" (.str "text")] }

/-- A configuration whose second element is the nil value. -/
def nilElementConfig : ResourceData :=
  { id := ""
    name := "Article"
    codename := "article"
    elements := [.map titleElement, .nil] }

/-! ## Lemmas on strings -/

theorem containsChars_iff (l sub : List Char) : containsChars l sub = true ↔ sub <:+: l := by
  induction l with
  | nil => cases sub <;> simp [containsChars]
  | cons c l ih =>
    rw [containsChars, Bool.or_eq_true, ih, List.isPrefixOf_iff_prefix, List.infix_cons_iff]

theorem stringsContains_iff (s substr : String) :
    stringsContains s substr = true ↔ substr.data <:+: s.data :=
  containsChars_iff _ _

theorem stringsContains_append_right (a b : String) : stringsContains (a ++ b) b = true := by
  rw [stringsContains_iff, String.data_append]
  exact (List.suffix_append _ _).isInfix

theorem stringsContains_append_of_left (a b sub : String) (h : stringsContains a sub = true) :
    stringsContains (a ++ b) sub = true := by
  rw [stringsContains_iff] at *
  rw [String.data_append]
  obtain ⟨s, t, hst⟩ := h
  exact ⟨s, t ++ b.data, by simp [← hst]⟩

/-! ## The pattern `\s+` -/

theorem seq_empty_matchesAtStart (s : Regex) (cs : List Char) :
    (Regex.seq .empty s).matchesAtStart cs = false := by
  induction cs with
  | nil => simp [Regex.matchesAtStart, Regex.nullable]
  | cons c cs ih => simpa [Regex.matchesAtStart, Regex.nullable, Regex.deriv] using ih

theorem seq_eps_star_matchesAtStart (s : Regex) (cs : List Char) :
    (Regex.seq .eps (.star s)).matchesAtStart cs = true := by
  cases cs <;> simp [Regex.matchesAtStart, Regex.nullable]

theorem whiteSpace_matchesAtStart_nil : whiteSpace.matchesAtStart [] = false := by
  simp [whiteSpace, Regex.matchesAtStart, Regex.nullable]

theorem whiteSpace_matchesAtStart_cons (c : Char) (cs : List Char) :
    whiteSpace.matchesAtStart (c :: cs) = perlSpace c := by
  by_cases h : perlSpace c = true
  · simp [whiteSpace, Regex.matchesAtStart, Regex.nullable, Regex.deriv, h,
      seq_eps_star_matchesAtStart]
  · simp [whiteSpace, Regex.matchesAtStart, Regex.nullable, Regex.deriv, h,
      seq_empty_matchesAtStart]

/-- The pattern `\s+` matches somewhere in the input exactly when the input has a character
of the class `\s`. -/
theorem whiteSpace_Match (cs : List Char) : whiteSpace.Match cs = cs.any perlSpace := by
  induction cs with
  | nil => simp [Regex.Match, whiteSpace_matchesAtStart_nil]
  | cons c cs ih => simp [Regex.Match, whiteSpace_matchesAtStart_cons, ih]

/-! ## `validateCodeName` -/

/-- C2, as the code has it: a string with a character of the class `\s` of the pattern (tab,
line feed, form feed, carriage return, space) is rejected: no warning and the one error
`codename cannot contain whitespace. Got <value>`, whose message holds the offending value.
The function takes no service and sends nothing. -/
theorem validateCodeName_rejects_whitespace (value k : String)
    (h : ∃ ch ∈ value.data, perlSpace ch = true) :
    validateCodeName (.str value) k
        = ([], ["codename cannot contain whitespace. Got " ++ value]) ∧
      (validateCodeName (.str value) k).2 ≠ [] ∧
      ∀ msg ∈ (validateCodeName (.str value) k).2,
        stringsContains msg "codename cannot contain whitespace" = true ∧
        stringsContains msg value = true := by
  have hm : whiteSpace.Match value.data = true := by
    rw [whiteSpace_Match, List.any_eq_true]
    exact h
  have hv : validateCodeName (.str value) k
      = ([], ["codename cannot contain whitespace. Got " ++ value]) := by
    simp [validateCodeName, hm]
  refine ⟨hv, by simp [hv], ?_⟩
  intro msg hmsg
  rw [hv] at hmsg
  simp only [List.mem_singleton] at hmsg
  subst hmsg
  exact ⟨stringsContains_append_of_left _ _ _ (by decide), stringsContains_append_right _ _⟩

theorem validateCodeName_rejects_whitespace_witness :
    validateCodeName (.str "my type") "codename"
        = ([], ["codename cannot contain whitespace. Got " ++ "my type"]) ∧
      (validateCodeName (.str "my type") "codename").2 ≠ [] ∧
      ∀ msg ∈ (validateCodeName (.str "my type") "codename").2,
        stringsContains msg "codename cannot contain whitespace" = true ∧
        stringsContains msg "my type" = true :=
  validateCodeName_rejects_whitespace "my type" "codename" ⟨' ', by decide, by decide⟩

/-- C2 as stated fails: the vertical tab and the no-break space are whitespace characters,
and the strings `a<VT>b` and `a<NBSP>b` that hold them are accepted, with no warning and no
error. -/
theorem validateCodeName_accepts_other_whitespace :
    (∃ ch ∈ "a\x0bb".data, unicodeIsSpace ch = true) ∧
    validateCodeName (.str "a\x0bb") "codename" = ([], []) ∧
    (∃ ch ∈ "a\u00a0b".data, unicodeIsSpace ch = true) ∧
    validateCodeName (.str "a\u00a0b") "codename" = ([], []) := by
  refine ⟨⟨'\x0b', by decide, by decide⟩, by decide, ⟨'\u00a0', by decide, by decide⟩,
    by decide⟩

/-- C3: a string with no whitespace character (none of the class `\s` of the pattern), the
empty string among them, is accepted: no warning and no error. -/
theorem validateCodeName_accepts_no_whitespace (value k : String)
    (h : ∀ ch ∈ value.data, perlSpace ch = false) :
    validateCodeName (.str value) k = ([], []) := by
  have hm : whiteSpace.Match value.data = false := by
    rw [whiteSpace_Match, List.any_eq_false]
    intro ch hch
    simp [h ch hch]
  simp [validateCodeName, hm]

theorem validateCodeName_accepts_no_whitespace_witness :
    validateCodeName (.str "article") "codename" = ([], []) ∧
      validateCodeName (.str "") "codename" = ([], []) :=
  ⟨validateCodeName_accepts_no_whitespace "article" "codename" (by decide),
    validateCodeName_accepts_no_whitespace "" "codename" (by decide)⟩

/-! ## `httpRequest` -/

theorem httpRequest_of_build_error (env : Env) (c : Client) (log : List Request)
    (path method body err : String) (h : c.buildRequest env path method body = .error err) :
    c.httpRequest env log path method body = (.error err, log) := by
  simp [Client.httpRequest, h]

theorem httpRequest_log (env : Env) (c : Client) (log : List Request)
    (path method body : String) (req : Request)
    (h : c.buildRequest env path method body = .ok req) :
    (c.httpRequest env log path method body).2 = log ++ [req] := by
  simp only [Client.httpRequest, h]
  cases env.transport (log ++ [req]) with
  | transportError err => rfl
  | response resp =>
    simp only
    split
    · cases resp.body <;> rfl
    · rfl

/-- The request `httpRequest` builds when `http.NewRequest` raises no error. -/
theorem buildRequest_of_accepted (env : Env) (c : Client) (path method body : String)
    (h : env.newRequestErr method (c.requestPath path) = none) :
    c.buildRequest env path method body = .ok
      { method := if method = "" then "GET" else method
        url := c.requestPath path
        headers := ("Authorization", "Bearer " ++ c.apiKey) ::
          (if method = "GET" ∨ method = "DELETE" then []
            else [("Content-Type", "application/json")])
        body := body } := by
  simp only [Client.buildRequest, h, Request.addHeader]
  by_cases hg : method = "GET"
  · simp [hg]
  · by_cases hd : method = "DELETE"
    · simp [hd]
    · simp [hg, hd]

theorem buildRequest_method_url (env : Env) (c : Client) (path method body : String)
    (req : Request) (h : c.buildRequest env path method body = .ok req) :
    req.method = (if method = "" then "GET" else method) ∧ req.url = c.requestPath path ∧
      req.body = body := by
  cases hn : env.newRequestErr method (c.requestPath path) with
  | some err => simp [Client.buildRequest, hn] at h
  | none =>
    rw [buildRequest_of_accepted env c path method body hn] at h
    cases h
    exact ⟨rfl, rfl, rfl⟩

/-- C10: whenever `http.NewRequest` accepts the method and the URL, `httpRequest` sends one
request, which carries `Authorization` with the value `Bearer ` followed by the API key and
no other value, and carries `Content-Type: application/json` exactly when the method it was
given is neither `GET` nor `DELETE`. -/
theorem httpRequest_headers (env : Env) (c : Client) (log : List Request)
    (path method body : String)
    (h : env.newRequestErr method (c.requestPath path) = none) :
    ∃ req, (c.httpRequest env log path method body).2 = log ++ [req] ∧
      (∀ v, ("Authorization", v) ∈ req.headers ↔ v = "Bearer " ++ c.apiKey) ∧
      (("Content-Type", "application/json") ∈ req.headers ↔
        (method ≠ "GET" ∧ method ≠ "DELETE")) ∧
      ((∃ v, ("Content-Type", v) ∈ req.headers) ↔ (method ≠ "GET" ∧ method ≠ "DELETE")) := by
  refine ⟨_, httpRequest_log env c log path method body _
    (buildRequest_of_accepted env c path method body h), ?_, ?_, ?_⟩
  · intro v
    by_cases hm : method = "GET" ∨ method = "DELETE" <;> simp [hm]
  · by_cases hm : method = "GET" ∨ method = "DELETE"
    · simp only [hm, if_true, List.mem_singleton, Prod.mk.injEq]
      constructor
      · intro hh; exact absurd hh.1 (by decide)
      · intro hh; rcases hm with hm | hm
        · exact absurd hm hh.1
        · exact absurd hm hh.2
    · simp only [hm, if_false]
      push_neg at hm
      simp [hm]
  · by_cases hm : method = "GET" ∨ method = "DELETE"
    · simp only [hm, if_true, List.mem_singleton, Prod.mk.injEq]
      constructor
      · rintro ⟨v, hh, _⟩; exact absurd hh (by decide)
      · intro hh; rcases hm with hm | hm
        · exact absurd hm hh.1
        · exact absurd hm hh.2
    · simp only [hm, if_false]
      push_neg at hm
      simp [hm]

theorem httpRequest_headers_witness :
    ∃ req, (someClient.httpRequest (scenario (always 200 "")) [] "types" "POST" "x").2
        = [] ++ [req] ∧
      (∀ v, ("Authorization", v) ∈ req.headers ↔ v = "Bearer " ++ someClient.apiKey) ∧
      (("Content-Type", "application/json") ∈ req.headers ↔
        (("POST" : String) ≠ "GET" ∧ ("POST" : String) ≠ "DELETE")) ∧
      ((∃ v, ("Content-Type", v) ∈ req.headers) ↔
        (("POST" : String) ≠ "GET" ∧ ("POST" : String) ≠ "DELETE")) :=
  httpRequest_headers (scenario (always 200 "")) someClient [] "types" "POST" "x" rfl

/-- What `httpRequest` returns once the service has answered with the response `resp`. -/
theorem httpRequest_of_response (env : Env) (c : Client) (log : List Request)
    (path method body : String) (req : Request) (resp : Response)
    (hreq : c.buildRequest env path method body = .ok req)
    (hdo : env.transport (log ++ [req]) = .response resp) :
    c.httpRequest env log path method body =
      (if resp.statusCode = 200 ∨ resp.statusCode = 201 ∨ resp.statusCode = 204 then
          .ok resp.body
        else match resp.body with
          | .unreadable => .error ("got a non 200 status code: " ++ fmtInt resp.statusCode)
          | .text respBody =>
            .error ("got a non 200 status code: " ++ fmtInt resp.statusCode ++ " - "
              ++ respBody),
        log ++ [req]) := by
  simp only [Client.httpRequest, hreq, hdo]
  by_cases h : resp.statusCode = 200 ∨ resp.statusCode = 201 ∨ resp.statusCode = 204
  · have h' : ¬(resp.statusCode ≠ 200 ∧ resp.statusCode ≠ 201 ∧ resp.statusCode ≠ 204) := by
      tauto
    rw [if_neg h', if_pos h]
  · have h' : resp.statusCode ≠ 200 ∧ resp.statusCode ≠ 201 ∧ resp.statusCode ≠ 204 := by
      tauto
    rw [if_pos h', if_neg h]
    cases resp.body <;> rfl

/-- C4: once the request is built and the service has answered it with a response,
`httpRequest` returns the body of the response and no error if and only if the status code
is 200, 201 or 204. For every other status code it returns an error: when the body can be
read, the message holds the decimal status code and the body as it came; when the body
cannot be read, the message still holds the status code. -/
theorem httpRequest_classifies (env : Env) (c : Client) (log : List Request)
    (path method body : String) (req : Request) (resp : Response)
    (hreq : c.buildRequest env path method body = .ok req)
    (hdo : env.transport (log ++ [req]) = .response resp) :
    ((∃ b, (c.httpRequest env log path method body).1 = .ok b) ↔
        (resp.statusCode = 200 ∨ resp.statusCode = 201 ∨ resp.statusCode = 204)) ∧
      (∀ b, (c.httpRequest env log path method body).1 = .ok b → b = resp.body) ∧
      (¬(resp.statusCode = 200 ∨ resp.statusCode = 201 ∨ resp.statusCode = 204) →
        ∃ msg, (c.httpRequest env log path method body).1 = .error msg ∧
          stringsContains msg (fmtInt resp.statusCode) = true ∧
          (∀ respBody, resp.body = .text respBody →
            stringsContains msg respBody = true ∧
            msg = "got a non 200 status code: " ++ fmtInt resp.statusCode ++ " - "
              ++ respBody)) := by
  rw [httpRequest_of_response env c log path method body req resp hreq hdo]
  by_cases h : resp.statusCode = 200 ∨ resp.statusCode = 201 ∨ resp.statusCode = 204
  · simp only [h, if_true]
    refine ⟨⟨fun _ => trivial, fun _ => ⟨_, rfl⟩⟩, ?_, fun hn => absurd trivial hn⟩
    intro b hb
    cases hb
    rfl
  · simp only [h, if_false]
    cases hb : resp.body with
    | unreadable =>
      refine ⟨⟨?_, False.elim⟩, ?_, fun _ => ⟨_, rfl, stringsContains_append_right _ _, ?_⟩⟩
      · rintro ⟨b, hb'⟩; cases hb'
      · intro b hb'; cases hb'
      · intro respBody hrb; cases hrb
    | text s =>
      refine ⟨⟨?_, False.elim⟩, ?_, fun _ => ⟨_, rfl, ?_, ?_⟩⟩
      · rintro ⟨b, hb'⟩; cases hb'
      · intro b hb'; cases hb'
      · exact stringsContains_append_of_left _ _ _
          (stringsContains_append_of_left _ _ _ (stringsContains_append_right _ _))
      · intro respBody hrb
        cases hrb
        exact ⟨stringsContains_append_right _ _, rfl⟩

theorem httpRequest_classifies_witness :
    ((∃ b, (someClient.httpRequest (scenario (always 500 "internal error")) []
          "types" "GET" "").1 = .ok b) ↔
        ((500 : Int) = 200 ∨ (500 : Int) = 201 ∨ (500 : Int) = 204)) ∧
      (∀ b, (someClient.httpRequest (scenario (always 500 "internal error")) []
          "types" "GET" "").1 = .ok b → b = .text "internal error") ∧
      (¬((500 : Int) = 200 ∨ (500 : Int) = 201 ∨ (500 : Int) = 204) →
        ∃ msg, (someClient.httpRequest (scenario (always 500 "internal error")) []
            "types" "GET" "").1 = .error msg ∧
          stringsContains msg (fmtInt 500) = true ∧
          (∀ respBody, Body.text "internal error" = .text respBody →
            stringsContains msg respBody = true ∧
            msg = "got a non 200 status code: " ++ fmtInt 500 ++ " - " ++ respBody)) :=
  httpRequest_classifies (scenario (always 500 "internal error")) someClient []
    "types" "GET" ""
    { method := "GET", url := "https://manage.kontent.ai/v2/projects/p1/types",
      headers := [("Authorization", "Bearer secret")], body := "" }
    { statusCode := 500, body := .text "internal error" } rfl rfl

/-! ## The client's operations -/

/-- A successful `httpRequest` has sent exactly one request, and the service has answered it
with one of the three success codes. -/
theorem httpRequest_ok (env : Env) (c : Client) (log log1 : List Request)
    (path method body : String) (b : Body)
    (h : c.httpRequest env log path method body = (.ok b, log1)) :
    ∃ req resp, c.buildRequest env path method body = .ok req ∧ log1 = log ++ [req] ∧
      env.transport (log ++ [req]) = .response resp ∧
      (resp.statusCode = 200 ∨ resp.statusCode = 201 ∨ resp.statusCode = 204) ∧
      b = resp.body := by
  cases hb : c.buildRequest env path method body with
  | error err => rw [httpRequest_of_build_error env c log path method body err hb] at h; cases h
  | ok req =>
    cases hd : env.transport (log ++ [req]) with
    | transportError err => simp [Client.httpRequest, hb, hd] at h
    | response resp =>
      rw [httpRequest_of_response env c log path method body req resp hb hd] at h
      by_cases hs : resp.statusCode = 200 ∨ resp.statusCode = 201 ∨ resp.statusCode = 204
      · simp only [hs, if_true, Prod.mk.injEq, Except.ok.injEq] at h
        exact ⟨req, resp, rfl, h.2.symm, hd, hs, h.1.symm⟩
      · simp only [hs, if_false, Prod.mk.injEq] at h
        cases hbody : resp.body <;> simp [hbody] at h

/-- A failed `httpRequest` has sent no request or one. -/
theorem httpRequest_error (env : Env) (c : Client) (log log1 : List Request)
    (path method body err : String)
    (h : c.httpRequest env log path method body = (.error err, log1)) :
    log1 = log ∨ ∃ req, c.buildRequest env path method body = .ok req ∧ log1 = log ++ [req] := by
  cases hb : c.buildRequest env path method body with
  | error e =>
    rw [httpRequest_of_build_error env c log path method body e hb] at h
    exact Or.inl (by cases h; rfl)
  | ok req =>
    have hl := httpRequest_log env c log path method body req hb
    rw [h] at hl
    exact Or.inr ⟨req, rfl, hl⟩

/-- Go function `DeleteContentType` in terms of its one `httpRequest`. -/
theorem DeleteContentType_eq (env : Env) (c : Client) (log : List Request) (id : String) :
    c.DeleteContentType env log id =
      (match (c.httpRequest env log ("types/" ++ id) "DELETE" "").1 with
        | .error err => some err
        | .ok _ => none,
        (c.httpRequest env log ("types/" ++ id) "DELETE" "").2) := by
  unfold Client.DeleteContentType
  rcases hr : c.httpRequest env log ("types/" ++ id) "DELETE" "" with ⟨r, l⟩
  cases r <;> rfl

/-- A successful `DeleteContentType` has sent exactly one `DELETE types/{id}`, which the
service has answered with a success code. -/
theorem DeleteContentType_ok (env : Env) (c : Client) (log log1 : List Request) (id : String)
    (h : c.DeleteContentType env log id = (none, log1)) :
    ∃ del resp, log1 = log ++ [del] ∧ del.method = "DELETE" ∧
      del.url = c.requestPath ("types/" ++ id) ∧
      env.transport log1 = .response resp ∧
      (resp.statusCode = 200 ∨ resp.statusCode = 201 ∨ resp.statusCode = 204) := by
  rw [DeleteContentType_eq] at h
  rcases hr : c.httpRequest env log ("types/" ++ id) "DELETE" "" with ⟨r, l⟩
  rw [hr] at h
  cases r with
  | error err => simp at h
  | ok b =>
    simp only [Prod.mk.injEq, true_and] at h
    subst h
    obtain ⟨req, resp, hb, hl, hd, hs, -⟩ := httpRequest_ok env c log l _ _ _ b hr
    have hm := buildRequest_method_url env c _ _ _ req hb
    refine ⟨req, resp, hl, ?_, hm.2.1, hl ▸ hd, hs⟩
    rw [hm.1]; decide

/-- A failed `DeleteContentType` has sent nothing, or one `DELETE`. -/
theorem DeleteContentType_error (env : Env) (c : Client) (log log1 : List Request)
    (id err : String) (h : c.DeleteContentType env log id = (some err, log1)) :
    log1 = log ∨ ∃ del, log1 = log ++ [del] ∧ del.method = "DELETE" ∧
      del.url = c.requestPath ("types/" ++ id) := by
  rw [DeleteContentType_eq] at h
  rcases hr : c.httpRequest env log ("types/" ++ id) "DELETE" "" with ⟨r, l⟩
  rw [hr] at h
  cases r with
  | ok b => simp at h
  | error e =>
    simp only [Prod.mk.injEq, Option.some.injEq] at h
    obtain ⟨-, rfl⟩ := h
    rcases httpRequest_error env c log l _ _ _ e hr with hl | ⟨req, hb, hl⟩
    · exact Or.inl hl
    · have hm := buildRequest_method_url env c _ _ _ req hb
      refine Or.inr ⟨req, hl, ?_, hm.2.1⟩
      rw [hm.1]; decide

/-- A successful `NewContentType` has sent exactly one `POST types`, and the id it returns
is the one decoded from the body of the response. -/
theorem NewContentType_ok (env : Env) (c : Client) (log log1 : List Request)
    (contentType : ContentType) (id : String)
    (h : c.NewContentType env log contentType = (.ok id, log1)) :
    ∃ post resp created, log1 = log ++ [post] ∧ post.method = "POST" ∧
      post.url = c.requestPath "types" ∧
      env.encodeContentType contentType = .ok post.body ∧
      env.transport log1 = .response resp ∧
      (resp.statusCode = 200 ∨ resp.statusCode = 201 ∨ resp.statusCode = 204) ∧
      env.decodeContentType resp.body = .ok created ∧ id = created.Id := by
  unfold Client.NewContentType at h
  cases he : env.encodeContentType contentType with
  | error err => simp [he] at h
  | ok buf =>
    simp only [he] at h
    rcases hr : c.httpRequest env log "types" "POST" buf with ⟨r, l⟩
    rw [hr] at h
    cases r with
    | error err => simp at h
    | ok b =>
      simp only at h
      cases hdec : env.decodeContentType b with
      | error err => simp [hdec] at h
      | ok created =>
        simp only [hdec, Prod.mk.injEq, Except.ok.injEq] at h
        obtain ⟨rfl, rfl⟩ := h
        obtain ⟨req, resp, hb, hl, hd, hs, hbody⟩ := httpRequest_ok env c log l _ _ _ b hr
        have hm := buildRequest_method_url env c _ _ _ req hb
        refine ⟨req, resp, created, hl, ?_, hm.2.1, ?_, hl ▸ hd, hs, hbody ▸ hdec, rfl⟩
        · rw [hm.1]; decide
        · rw [hm.2.2]

/-- A failed `NewContentType` has sent nothing, or one `POST`. -/
theorem NewContentType_error (env : Env) (c : Client) (log log1 : List Request)
    (contentType : ContentType) (err : String)
    (h : c.NewContentType env log contentType = (.error err, log1)) :
    log1 = log ∨ ∃ post, log1 = log ++ [post] ∧ post.method = "POST" ∧
      post.url = c.requestPath "types" := by
  unfold Client.NewContentType at h
  cases he : env.encodeContentType contentType with
  | error e =>
    simp only [he, Prod.mk.injEq] at h
    exact Or.inl h.2.symm
  | ok buf =>
    simp only [he] at h
    rcases hr : c.httpRequest env log "types" "POST" buf with ⟨r, l⟩
    rw [hr] at h
    have hmeth : ∀ req, c.buildRequest env "types" "POST" buf = .ok req →
        req.method = "POST" ∧ req.url = c.requestPath "types" := by
      intro req hb
      have hm := buildRequest_method_url env c _ _ _ req hb
      exact ⟨by rw [hm.1]; decide, hm.2.1⟩
    cases r with
    | error e =>
      simp only [Prod.mk.injEq] at h
      obtain ⟨-, rfl⟩ := h
      rcases httpRequest_error env c log l _ _ _ e hr with hl | ⟨req, hb, hl⟩
      · exact Or.inl hl
      · exact Or.inr ⟨req, hl, hmeth req hb⟩
    | ok b =>
      simp only at h
      obtain ⟨req, resp, hb, hl, -⟩ := httpRequest_ok env c log l _ _ _ b hr
      cases hdec : env.decodeContentType b with
      | error e =>
        simp only [hdec, Prod.mk.injEq] at h
        obtain ⟨-, rfl⟩ := h
        exact Or.inr ⟨req, hl, hmeth req hb⟩
      | ok created => simp [hdec] at h

/-- What `NewContentType` sends: nothing, or one `POST types` whose body is the encoding of
the content type it was given. -/
theorem NewContentType_sent (env : Env) (c : Client) (log : List Request)
    (contentType : ContentType) :
    (c.NewContentType env log contentType).2 = log ∨
      ∃ post, (c.NewContentType env log contentType).2 = log ++ [post] ∧
        post.method = "POST" ∧ post.url = c.requestPath "types" ∧
        env.encodeContentType contentType = .ok post.body := by
  unfold Client.NewContentType
  cases he : env.encodeContentType contentType with
  | error e => exact Or.inl rfl
  | ok buf =>
    simp only
    cases hb : c.buildRequest env "types" "POST" buf with
    | error e =>
      rw [httpRequest_of_build_error env c log _ _ _ e hb]
      exact Or.inl rfl
    | ok req =>
      have hl := httpRequest_log env c log "types" "POST" buf req hb
      have hm := buildRequest_method_url env c _ _ _ req hb
      refine Or.inr ⟨req, ?_, by rw [hm.1]; decide, hm.2.1, by rw [hm.2.2]⟩
      rcases hr : c.httpRequest env log "types" "POST" buf with ⟨r, l⟩
      rw [hr] at hl
      simp only at hl
      subst hl
      cases r with
      | error e => rfl
      | ok b =>
        simp only
        cases env.decodeContentType b <;> rfl

/-- When the content type can be encoded and `http.NewRequest` accepts the request,
`NewContentType` sends one `POST` whose body is the encoding. -/
theorem NewContentType_sent_of_accepted (env : Env) (c : Client) (log : List Request)
    (contentType : ContentType) (buf : String)
    (he : env.encodeContentType contentType = .ok buf)
    (hn : env.newRequestErr "POST" (c.requestPath "types") = none) :
    ∃ post, (c.NewContentType env log contentType).2 = log ++ [post] ∧
      post.method = "POST" ∧ post.url = c.requestPath "types" ∧ post.body = buf := by
  cases hb : c.buildRequest env "types" "POST" buf with
  | error e => rw [buildRequest_of_accepted env c "types" "POST" buf hn] at hb; cases hb
  | ok req =>
  have hl := httpRequest_log env c log "types" "POST" buf req hb
  have hm := buildRequest_method_url env c _ _ _ req hb
  refine ⟨req, ?_, by rw [hm.1]; decide, hm.2.1, hm.2.2⟩
  unfold Client.NewContentType
  simp only [he]
  rcases hr : c.httpRequest env log "types" "POST" buf with ⟨r, l⟩
  rw [hr] at hl
  simp only at hl
  subst hl
  cases r with
  | error e => rfl
  | ok b =>
    simp only
    cases env.decodeContentType b <;> rfl

/-! ## `UpdateContentType` -/

theorem UpdateContentType_of_delete_error (env : Env) (c : Client) (log log1 : List Request)
    (contentType : ContentType) (err : String)
    (hdel : c.DeleteContentType env log contentType.Id = (some err, log1)) :
    c.UpdateContentType env log contentType = ((some err, contentType), log1) := by
  simp [Client.UpdateContentType, hdel]

theorem UpdateContentType_of_create_error (env : Env) (c : Client)
    (log log1 log2 : List Request) (contentType : ContentType) (err : String)
    (hdel : c.DeleteContentType env log contentType.Id = (none, log1))
    (hnew : c.NewContentType env log1 contentType = (.error err, log2)) :
    c.UpdateContentType env log contentType = ((some err, contentType), log2) := by
  simp [Client.UpdateContentType, hdel, hnew]

theorem UpdateContentType_of_created (env : Env) (c : Client)
    (log log1 log2 : List Request) (contentType : ContentType) (id : String)
    (hdel : c.DeleteContentType env log contentType.Id = (none, log1))
    (hnew : c.NewContentType env log1 contentType = (.ok id, log2)) :
    c.UpdateContentType env log contentType
      = ((none, { contentType with Id := id }), log2) := by
  simp [Client.UpdateContentType, hdel, hnew]

/-- The three ways `UpdateContentType` ends. -/
theorem UpdateContentType_cases (env : Env) (c : Client) (log : List Request)
    (contentType : ContentType) :
    (∃ err log1, c.DeleteContentType env log contentType.Id = (some err, log1) ∧
        c.UpdateContentType env log contentType = ((some err, contentType), log1)) ∨
      (∃ err log1 log2, c.DeleteContentType env log contentType.Id = (none, log1) ∧
        c.NewContentType env log1 contentType = (.error err, log2) ∧
        c.UpdateContentType env log contentType = ((some err, contentType), log2)) ∨
      (∃ id log1 log2, c.DeleteContentType env log contentType.Id = (none, log1) ∧
        c.NewContentType env log1 contentType = (.ok id, log2) ∧
        c.UpdateContentType env log contentType
          = ((none, { contentType with Id := id }), log2)) := by
  rcases hdel : c.DeleteContentType env log contentType.Id with ⟨e, log1⟩
  cases e with
  | some err => exact Or.inl ⟨err, log1, rfl, UpdateContentType_of_delete_error _ _ _ _ _ _ hdel⟩
  | none =>
    rcases hnew : c.NewContentType env log1 contentType with ⟨r, log2⟩
    cases r with
    | error err =>
      exact Or.inr (Or.inl ⟨err, log1, log2, rfl, hnew,
        UpdateContentType_of_create_error _ _ _ _ _ _ _ hdel hnew⟩)
    | ok id =>
      exact Or.inr (Or.inr ⟨id, log1, log2, rfl, hnew,
        UpdateContentType_of_created _ _ _ _ _ _ _ hdel hnew⟩)

theorem resourceUpdateContentType_of_panic (env : Env) (c : Client) (log : List Request)
    (d : ResourceData) (h : resourceUpdateContentType.contentType d = none) :
    resourceUpdateContentType env c log d = (.panicked assertionPanic, d, log) := by
  simp [resourceUpdateContentType, h]

theorem resourceUpdateContentType_of_error (env : Env) (c : Client) (log log1 : List Request)
    (d : ResourceData) (err : String) (ct0 ct : ContentType)
    (hct : resourceUpdateContentType.contentType d = some ct0)
    (h : c.UpdateContentType env log ct0 = ((some err, ct), log1)) :
    resourceUpdateContentType env c log d = (.returned (some err), d, log1) := by
  simp [resourceUpdateContentType, hct, h]

theorem resourceUpdateContentType_of_ok (env : Env) (c : Client) (log log1 : List Request)
    (d : ResourceData) (ct0 ct : ContentType)
    (hct : resourceUpdateContentType.contentType d = some ct0)
    (h : c.UpdateContentType env log ct0 = ((none, ct), log1)) :
    resourceUpdateContentType env c log d = (.returned none, { d with id := ct.Id }, log1) := by
  simp [resourceUpdateContentType, hct, h]

/-- The content type `resourceUpdateContentType` builds carries the stored id. -/
theorem resourceUpdateContentType_contentType_Id (d : ResourceData) (ct : ContentType)
    (h : resourceUpdateContentType.contentType d = some ct) : ct.Id = d.id := by
  unfold resourceUpdateContentType.contentType at h
  cases he : resourceUpdateContentType.elements d.elements with
  | none => simp [he] at h
  | some elements =>
    simp only [he, Option.some.injEq] at h
    rw [← h]

/-- The hook `resourceUpdateContentType` sends what `UpdateContentType` sends for the content type it
has built. -/
theorem resourceUpdateContentType_log (env : Env) (c : Client) (log : List Request)
    (d : ResourceData) (ct : ContentType)
    (hct : resourceUpdateContentType.contentType d = some ct) :
    (resourceUpdateContentType env c log d).2.2 = (c.UpdateContentType env log ct).2 ∧
    (resourceUpdateContentType env c log d).1
      = .returned (c.UpdateContentType env log ct).1.1 := by
  rcases hu : c.UpdateContentType env log ct with ⟨⟨e, ct1⟩, l⟩
  cases e with
  | some err =>
    rw [resourceUpdateContentType_of_error env c log l d err ct ct1 hct hu]
    exact ⟨rfl, rfl⟩
  | none =>
    rw [resourceUpdateContentType_of_ok env c log l d ct ct1 hct hu]
    exact ⟨rfl, rfl⟩

/-- What `UpdateContentType` sends: nothing; or one `DELETE types/{ct.Id}`; or that `DELETE`,
answered by the service with a success code, and after it one `POST types` whose body is the
encoding of `ct`. -/
theorem UpdateContentType_sent (env : Env) (c : Client) (log : List Request)
    (ct : ContentType) :
    (c.UpdateContentType env log ct).2 = log ∨
      (∃ del, (c.UpdateContentType env log ct).2 = log ++ [del] ∧ del.method = "DELETE" ∧
        del.url = c.requestPath ("types/" ++ ct.Id)) ∨
      (∃ del post dresp, (c.UpdateContentType env log ct).2 = log ++ [del, post] ∧
        del.method = "DELETE" ∧ del.url = c.requestPath ("types/" ++ ct.Id) ∧
        env.transport (log ++ [del]) = .response dresp ∧
        (dresp.statusCode = 200 ∨ dresp.statusCode = 201 ∨ dresp.statusCode = 204) ∧
        post.method = "POST" ∧ post.url = c.requestPath "types" ∧
        env.encodeContentType ct = .ok post.body) := by
  rcases hdel : c.DeleteContentType env log ct.Id with ⟨e, log1⟩
  cases e with
  | some err =>
    rw [UpdateContentType_of_delete_error env c log log1 ct err hdel]
    rcases DeleteContentType_error env c log log1 _ err hdel with hl | ⟨del, hl, hm, hurl⟩
    · exact Or.inl hl
    · exact Or.inr (Or.inl ⟨del, hl, hm, hurl⟩)
  | none =>
    obtain ⟨del, dresp, hl1, hdm, hdu, hd, hs⟩ := DeleteContentType_ok env c log log1 _ hdel
    have hu : (c.UpdateContentType env log ct).2 = (c.NewContentType env log1 ct).2 := by
      rcases hnew : c.NewContentType env log1 ct with ⟨r, log2⟩
      cases r with
      | error err => rw [UpdateContentType_of_create_error env c log log1 log2 ct err hdel hnew]
      | ok id => rw [UpdateContentType_of_created env c log log1 log2 ct id hdel hnew]
    rw [hu]
    rcases NewContentType_sent env c log1 ct with hl | ⟨post, hl, hpm, hpu, hpe⟩
    · exact Or.inr (Or.inl ⟨del, by rw [hl, hl1], hdm, hdu⟩)
    · exact Or.inr (Or.inr ⟨del, post, dresp, by rw [hl, hl1]; simp, hdm, hdu, hl1 ▸ hd, hs,
        hpm, hpu, hpe⟩)

/-- A successful `UpdateContentType` has sent exactly one `DELETE types/{ct.Id}`, which the
service has answered with a success code, followed by exactly one `POST types`, and has put
the id decoded from the response to the `POST` into `ct.Id`. -/
theorem UpdateContentType_ok (env : Env) (c : Client) (log : List Request) (ct : ContentType)
    (h : (c.UpdateContentType env log ct).1.1 = none) :
    ∃ del post dresp resp created,
      (c.UpdateContentType env log ct).2 = log ++ [del, post] ∧
      del.method = "DELETE" ∧ del.url = c.requestPath ("types/" ++ ct.Id) ∧
      env.transport (log ++ [del]) = .response dresp ∧
      (dresp.statusCode = 200 ∨ dresp.statusCode = 201 ∨ dresp.statusCode = 204) ∧
      post.method = "POST" ∧ post.url = c.requestPath "types" ∧
      env.encodeContentType ct = .ok post.body ∧
      env.transport (log ++ [del, post]) = .response resp ∧
      (resp.statusCode = 200 ∨ resp.statusCode = 201 ∨ resp.statusCode = 204) ∧
      env.decodeContentType resp.body = .ok created ∧
      (c.UpdateContentType env log ct).1.2 = { ct with Id := created.Id } := by
  rcases UpdateContentType_cases env c log ct with
    ⟨err, log1, -, hu⟩ | ⟨err, log1, log2, -, -, hu⟩ | ⟨id, log1, log2, hdel, hnew, hu⟩
  · rw [hu] at h; cases h
  · rw [hu] at h; cases h
  · obtain ⟨del, dresp, hl1, hdm, hdu, hdd, hds⟩ := DeleteContentType_ok env c log log1 _ hdel
    obtain ⟨post, resp, created, hl2, hpm, hpu, hpe, hd, hs, hdec, hid⟩ :=
      NewContentType_ok env c log1 log2 ct id hnew
    have hlog : log2 = log ++ [del, post] := by rw [hl2, hl1]; simp
    refine ⟨del, post, dresp, resp, created, ?_, hdm, hdu, hl1 ▸ hdd, hds, hpm, hpu, hpe,
      hlog ▸ hd, hs, hdec, ?_⟩
    · rw [hu, hlog]
    · rw [hu, hid]

/-- C1, as the code has it: `UpdateContentType` sends nothing but a `DELETE types/{ct.Id}`
and, after it, a `POST types`, each at most once, and the `POST` only when the service has
answered the `DELETE` with a success code. When it returns no error it has sent exactly the
`DELETE`, answered with success, followed by exactly the `POST`, and `ct.Id` is the id
decoded from the response to the `POST`; the adapter's `resourceUpdateContentType`, when it
returns no error, has sent the same two requests and stores that id with `d.SetId`, and
whatever it returns it has sent nothing but those requests, under the same condition. -/
theorem UpdateContentType_delete_then_create (env : Env) (c : Client) (log : List Request)
    (ct : ContentType) (d : ResourceData) :
    ((c.UpdateContentType env log ct).2 = log ∨
      (∃ del, (c.UpdateContentType env log ct).2 = log ++ [del] ∧ del.method = "DELETE" ∧
        del.url = c.requestPath ("types/" ++ ct.Id)) ∨
      (∃ del post dresp, (c.UpdateContentType env log ct).2 = log ++ [del, post] ∧
        del.method = "DELETE" ∧ del.url = c.requestPath ("types/" ++ ct.Id) ∧
        env.transport (log ++ [del]) = .response dresp ∧
        (dresp.statusCode = 200 ∨ dresp.statusCode = 201 ∨ dresp.statusCode = 204) ∧
        post.method = "POST" ∧ post.url = c.requestPath "types" ∧
        env.encodeContentType ct = .ok post.body)) ∧
    ((c.UpdateContentType env log ct).1.1 = none →
      ∃ del post dresp resp created,
        (c.UpdateContentType env log ct).2 = log ++ [del, post] ∧
        del.method = "DELETE" ∧ del.url = c.requestPath ("types/" ++ ct.Id) ∧
        env.transport (log ++ [del]) = .response dresp ∧
        (dresp.statusCode = 200 ∨ dresp.statusCode = 201 ∨ dresp.statusCode = 204) ∧
        post.method = "POST" ∧ post.url = c.requestPath "types" ∧
        env.encodeContentType ct = .ok post.body ∧
        env.transport (log ++ [del, post]) = .response resp ∧
        (resp.statusCode = 200 ∨ resp.statusCode = 201 ∨ resp.statusCode = 204) ∧
        env.decodeContentType resp.body = .ok created ∧
        (c.UpdateContentType env log ct).1.2 = { ct with Id := created.Id }) ∧
    ((resourceUpdateContentType env c log d).1 = .returned none →
      ∃ del post dresp resp created,
        (resourceUpdateContentType env c log d).2.2 = log ++ [del, post] ∧
        del.method = "DELETE" ∧ del.url = c.requestPath ("types/" ++ d.id) ∧
        env.transport (log ++ [del]) = .response dresp ∧
        (dresp.statusCode = 200 ∨ dresp.statusCode = 201 ∨ dresp.statusCode = 204) ∧
        post.method = "POST" ∧ post.url = c.requestPath "types" ∧
        env.transport (log ++ [del, post]) = .response resp ∧
        (resp.statusCode = 200 ∨ resp.statusCode = 201 ∨ resp.statusCode = 204) ∧
        env.decodeContentType resp.body = .ok created ∧
        (resourceUpdateContentType env c log d).2.1.id = created.Id) ∧
    ((resourceUpdateContentType env c log d).2.2 = log ∨
      (∃ del, (resourceUpdateContentType env c log d).2.2 = log ++ [del] ∧
        del.method = "DELETE" ∧ del.url = c.requestPath ("types/" ++ d.id)) ∨
      (∃ del post dresp, (resourceUpdateContentType env c log d).2.2 = log ++ [del, post] ∧
        del.method = "DELETE" ∧ del.url = c.requestPath ("types/" ++ d.id) ∧
        env.transport (log ++ [del]) = .response dresp ∧
        (dresp.statusCode = 200 ∨ dresp.statusCode = 201 ∨ dresp.statusCode = 204) ∧
        post.method = "POST" ∧ post.url = c.requestPath "types")) := by
  refine ⟨UpdateContentType_sent env c log ct, UpdateContentType_ok env c log ct, ?_, ?_⟩
  swap
  · cases hct : resourceUpdateContentType.contentType d with
    | none =>
      rw [resourceUpdateContentType_of_panic env c log d hct]
      exact Or.inl rfl
    | some ct0 =>
      rw [(resourceUpdateContentType_log env c log d ct0 hct).1,
        ← resourceUpdateContentType_contentType_Id d ct0 hct]
      rcases UpdateContentType_sent env c log ct0 with
        h0 | ⟨del, h1, hm, hurl⟩ | ⟨del, post, dresp, h2, hdm, hdu, hdd, hds, hpm, hpu, -⟩
      · exact Or.inl h0
      · exact Or.inr (Or.inl ⟨del, h1, hm, hurl⟩)
      · exact Or.inr (Or.inr ⟨del, post, dresp, h2, hdm, hdu, hdd, hds, hpm, hpu⟩)
  intro hret
  cases hct : resourceUpdateContentType.contentType d with
  | none =>
    rw [resourceUpdateContentType_of_panic env c log d hct] at hret
    cases hret
  | some ct0 =>
    rcases hu : c.UpdateContentType env log ct0 with ⟨⟨e, ct1⟩, l⟩
    cases e with
    | some err =>
      rw [resourceUpdateContentType_of_error env c log l d err ct0 ct1 hct hu] at hret
      cases hret
    | none =>
      have h1 : (c.UpdateContentType env log ct0).1.1 = none := by rw [hu]
      obtain ⟨del, post, dresp, resp, created, hl, hdm, hdu, hdd, hds, hpm, hpu, -, hd, hs,
        hdec, hid⟩ := UpdateContentType_ok env c log ct0 h1
      rw [hu] at hl hid
      rw [resourceUpdateContentType_of_ok env c log l d ct0 ct1 hct hu]
      refine ⟨del, post, dresp, resp, created, hl, hdm, ?_, hdd, hds, hpm, hpu, hd, hs, hdec,
        ?_⟩
      · rw [hdu, resourceUpdateContentType_contentType_Id d ct0 hct]
      · show ct1.Id = created.Id
        simp only at hid
        rw [hid]

/-- C1 at a service that answers every request with 200 and the body `new1`: the update of
`article` returns no error, and the `DELETE` and the `POST` and the stored id are as the
theorem says. -/
theorem UpdateContentType_delete_then_create_witness :
    (resourceUpdateContentType (scenario (always 200 "new1")) someClient [] article).1
      = .returned none ∧
    ∃ del post dresp resp created,
      (resourceUpdateContentType (scenario (always 200 "new1")) someClient [] article).2.2
        = [] ++ [del, post] ∧
      del.method = "DELETE" ∧ del.url = someClient.requestPath ("types/" ++ article.id) ∧
      (scenario (always 200 "new1")).transport ([] ++ [del]) = .response dresp ∧
      (dresp.statusCode = 200 ∨ dresp.statusCode = 201 ∨ dresp.statusCode = 204) ∧
      post.method = "POST" ∧ post.url = someClient.requestPath "types" ∧
      (scenario (always 200 "new1")).transport ([] ++ [del, post]) = .response resp ∧
      (resp.statusCode = 200 ∨ resp.statusCode = 201 ∨ resp.statusCode = 204) ∧
      (scenario (always 200 "new1")).decodeContentType resp.body = .ok created ∧
      (resourceUpdateContentType (scenario (always 200 "new1")) someClient [] article).2.1.id
        = created.Id :=
  ⟨by decide,
    (UpdateContentType_delete_then_create (scenario (always 200 "new1")) someClient []
      articleContentType article).2.2.1 (by decide)⟩

/-- C1 as stated fails: when the service answers the `DELETE` with 500, `UpdateContentType`
has sent the `DELETE` and nothing else, no `POST` among it, and `ct.Id` is the id from
before the update. -/
theorem UpdateContentType_delete_failed_sends_no_post :
    (someClient.UpdateContentType (scenario (always 500 "internal error")) []
        (bareContentType "old")).2
      = [{ method := "DELETE", url := "https://manage.kontent.ai/v2/projects/p1/types/old",
           headers := [("Authorization", "Bearer secret")], body := "" }] ∧
    (¬ ∃ del post, (someClient.UpdateContentType (scenario (always 500 "internal error")) []
        (bareContentType "old")).2 = [del, post]) ∧
    (someClient.UpdateContentType (scenario (always 500 "internal error")) []
        (bareContentType "old")).1.2.Id = "old" := by
  have hlog : (someClient.UpdateContentType (scenario (always 500 "internal error")) []
        (bareContentType "old")).2
      = [{ method := "DELETE", url := "https://manage.kontent.ai/v2/projects/p1/types/old",
           headers := [("Authorization", "Bearer secret")], body := "" }] := by
    decide
  refine ⟨hlog, ?_, by decide⟩
  rintro ⟨del, post, h⟩
  rw [hlog] at h
  simp at h

/-! ## Failure inside `UpdateContentType` -/

/-- C7: `UpdateContentType` is not atomic and changes the id only when it succeeds. If the
delete step fails, the error is returned, `ct` is as it was, and nothing but at most the one
`DELETE` has been sent: no `POST`. If the delete step succeeds and the create step fails, the
`DELETE` has been sent and the service has answered it with a success code, the error of the
create step is returned, nothing follows the at most one `POST` of the create step, and `ct`
is as it was, old id included. Whenever `UpdateContentType` fails on the content type that
`resourceUpdateContentType` has built, the hook returns that error and leaves the resource
data, the stored id included, as it was. -/
theorem UpdateContentType_not_atomic (env : Env) (c : Client) (log : List Request)
    (ct : ContentType) (d : ResourceData) :
    (∀ err log1, c.DeleteContentType env log ct.Id = (some err, log1) →
      c.UpdateContentType env log ct = ((some err, ct), log1) ∧
      (log1 = log ∨ ∃ del, log1 = log ++ [del] ∧ del.method = "DELETE" ∧
        del.url = c.requestPath ("types/" ++ ct.Id))) ∧
    (∀ err log1 log2, c.DeleteContentType env log ct.Id = (none, log1) →
      c.NewContentType env log1 ct = (.error err, log2) →
      c.UpdateContentType env log ct = ((some err, ct), log2) ∧
      (∃ del resp, log1 = log ++ [del] ∧ del.method = "DELETE" ∧
        del.url = c.requestPath ("types/" ++ ct.Id) ∧
        env.transport (log ++ [del]) = .response resp ∧
        (resp.statusCode = 200 ∨ resp.statusCode = 201 ∨ resp.statusCode = 204)) ∧
      (log2 = log1 ∨ ∃ post, log2 = log1 ++ [post] ∧ post.method = "POST" ∧
        post.url = c.requestPath "types")) ∧
    (∀ ct0 err, resourceUpdateContentType.contentType d = some ct0 →
      (c.UpdateContentType env log ct0).1.1 = some err →
      ct0.Id = d.id ∧
      resourceUpdateContentType env c log d = (.returned (some err), d,
        (c.UpdateContentType env log ct0).2)) := by
  refine ⟨?_, ?_, ?_⟩
  · intro err log1 hdel
    exact ⟨UpdateContentType_of_delete_error env c log log1 ct err hdel,
      DeleteContentType_error env c log log1 _ err hdel⟩
  · intro err log1 log2 hdel hnew
    obtain ⟨del, resp, hl1, hdm, hdu, hd, hs⟩ := DeleteContentType_ok env c log log1 _ hdel
    exact ⟨UpdateContentType_of_create_error env c log log1 log2 ct err hdel hnew,
      ⟨del, resp, hl1, hdm, hdu, hl1 ▸ hd, hs⟩,
      NewContentType_error env c log1 log2 ct err hnew⟩
  · intro ct0 err hct h
    rcases hu : c.UpdateContentType env log ct0 with ⟨⟨e, ct1⟩, l⟩
    rw [hu] at h
    simp only at h
    subst h
    exact ⟨resourceUpdateContentType_contentType_Id d ct0 hct,
      resourceUpdateContentType_of_error env c log l d err ct0 ct1 hct hu⟩

/-- C7 at a service that answers the `DELETE` with 204 and what follows with 500: the
delete step succeeds, the create step fails, and the update of `article` returns the error
of the create step with the old id `abc123` still stored. -/
theorem UpdateContentType_not_atomic_witness :
    resourceUpdateContentType.contentType article = some articleContentType ∧
    (someClient.UpdateContentType
        (scenario (firstThen (.response ⟨204, .text ""⟩)
          (.response ⟨500, .text "internal error"⟩))) [] articleContentType
      = ((some "got a non 200 status code: 500 - internal error", articleContentType),
        [{ method := "DELETE", url := "https://manage.kontent.ai/v2/projects/p1/types/abc123",
           headers := [("Authorization", "Bearer secret")], body := "" },
         { method := "POST", url := "https://manage.kontent.ai/v2/projects/p1/types",
           headers := [("Authorization", "Bearer secret"),
             ("Content-Type", "application/json")], body := "abc123" }])) ∧
    resourceUpdateContentType
        (scenario (firstThen (.response ⟨204, .text ""⟩)
          (.response ⟨500, .text "internal error"⟩))) someClient [] article
      = (.returned (some "got a non 200 status code: 500 - internal error"), article,
          (someClient.UpdateContentType
            (scenario (firstThen (.response ⟨204, .text ""⟩)
              (.response ⟨500, .text "internal error"⟩))) [] articleContentType).2) :=
  ⟨rfl,
    ((UpdateContentType_not_atomic
      (scenario (firstThen (.response ⟨204, .text ""⟩)
        (.response ⟨500, .text "internal error"⟩))) someClient []
      articleContentType article).2.1
      "got a non 200 status code: 500 - internal error" _ _ rfl rfl).1,
    ((UpdateContentType_not_atomic
      (scenario (firstThen (.response ⟨204, .text ""⟩)
        (.response ⟨500, .text "internal error"⟩))) someClient []
      articleContentType article).2.2 articleContentType
      "got a non 200 status code: 500 - internal error" rfl (by decide)).2⟩

/-! ## Read and Exists -/

/-- Go function `GetContentType` returns the nil pointer with an error, or a pointer with no error. -/
theorem GetContentType_cases (env : Env) (c : Client) (log : List Request) (id : String) :
    (∃ err, (c.GetContentType env log id).1 = (none, some err)) ∨
      (∃ contentType, (c.GetContentType env log id).1 = (some contentType, none)) := by
  unfold Client.GetContentType
  rcases c.httpRequest env log ("types/" ++ id) "GET" "" with ⟨r, l⟩
  cases r with
  | error err => exact Or.inl ⟨err, rfl⟩
  | ok body =>
    simp only
    cases env.decodeContentType body with
    | error err => exact Or.inl ⟨err, rfl⟩
    | ok contentType => exact Or.inr ⟨contentType, rfl⟩

/-- Read after a fetch that failed with `not found` in the message: the id is cleared, and
then the fields of the nil pointer are read. -/
theorem resourceReadContentType_of_not_found (env : Env) (c : Client) (log log1 : List Request)
    (d : ResourceData) (err : String)
    (hget : c.GetContentType env log d.id = ((none, some err), log1))
    (hnf : stringsContains err "not found" = true) :
    resourceReadContentType env c log d
      = (.panicked "invalid memory address or nil pointer dereference",
          { d with id := "" }, log1) := by
  simp [resourceReadContentType, hget, hnf]

/-- Read after a fetch that failed without `not found` in the message. -/
theorem resourceReadContentType_of_other_error (env : Env) (c : Client)
    (log log1 : List Request) (d : ResourceData) (ptr : Option ContentType) (err : String)
    (hget : c.GetContentType env log d.id = ((ptr, some err), log1))
    (hnf : stringsContains err "not found" = false) :
    resourceReadContentType env c log d
      = (.returned (some ("error finding content type with ID " ++ sprintSPtr env ptr)),
          d, log1) := by
  simp [resourceReadContentType, hget, hnf]

/-- Read after a fetch that succeeded. -/
theorem resourceReadContentType_of_fetched (env : Env) (c : Client) (log log1 : List Request)
    (d : ResourceData) (contentType : ContentType)
    (hget : c.GetContentType env log d.id = ((some contentType, none), log1)) :
    resourceReadContentType env c log d
      = (.returned none,
          { id := contentType.Id, name := contentType.Name, codename := contentType.CodeName,
            elements := contentType.Elements.map Item.map }, log1) := by
  simp [resourceReadContentType, hget]

/-- C5 at a service that answers 404 with the body `not found`: the fetch fails with
`not found` in its message, Read clears the id and then stops in a nil-pointer panic instead
of returning. -/
theorem resourceReadContentType_not_found_panics :
    (someClient.GetContentType (scenario (always 404 "not found")) [] article.id).1
      = (none, some "got a non 200 status code: 404 - not found") ∧
    stringsContains "got a non 200 status code: 404 - not found" "not found" = true ∧
    (resourceReadContentType (scenario (always 404 "not found")) someClient [] article).1
      = .panicked "invalid memory address or nil pointer dereference" ∧
    (resourceReadContentType (scenario (always 404 "not found")) someClient [] article).2.1.id
      = "" := by
  refine ⟨rfl, by decide, by decide, by decide⟩

/-- C6 as stated fails: when the service answers 500 with the body `internal error`, the
fetch fails with `got a non 200 status code: 500 - internal error`, and the error Read
returns has another message, one that holds neither `500` nor `internal error`. -/
theorem resourceReadContentType_error_not_verbatim :
    (someClient.GetContentType (scenario (always 500 "internal error")) [] article.id).1
      = (none, some "got a non 200 status code: 500 - internal error") ∧
    stringsContains "got a non 200 status code: 500 - internal error" "not found" = false ∧
    (resourceReadContentType (scenario (always 500 "internal error")) someClient [] article).1
      = .returned (some "error finding content type with ID %!s(*client.ContentType=<nil>)") ∧
    (resourceReadContentType (scenario (always 500 "internal error")) someClient [] article).1
      ≠ .returned (some "got a non 200 status code: 500 - internal error") ∧
    stringsContains "error finding content type with ID %!s(*client.ContentType=<nil>)" "500"
      = false ∧
    stringsContains "error finding content type with ID %!s(*client.ContentType=<nil>)"
      "internal error" = false := by
  refine ⟨rfl, by decide, by decide, by decide, by decide, by decide⟩

/-- With an error `GetContentType` returns the nil pointer. -/
theorem GetContentType_error_ptr (env : Env) (c : Client) (log log1 : List Request)
    (id err : String) (ptr : Option ContentType)
    (hget : c.GetContentType env log id = ((ptr, some err), log1)) : ptr = none := by
  rcases GetContentType_cases env c log id with ⟨e, h⟩ | ⟨contentType, h⟩
  · rw [hget] at h
    simp only [Prod.mk.injEq] at h
    exact h.1
  · rw [hget] at h
    simp at h

/-- C6, as the code has it: when the fetch fails with an error whose message does not hold
`not found`, Read returns an error of its own and leaves the resource data, the id included,
as it was; it sends nothing beyond the request of the fetch. The message starts with
`error finding content type with ID `, and what follows does not come from the client's
error: whatever the service, the client and the error of the fetch, Read of the same
resource data returns the same message. -/
theorem resourceReadContentType_other_error (env : Env) (c : Client)
    (log log1 : List Request) (d : ResourceData) (ptr : Option ContentType) (err : String)
    (hget : c.GetContentType env log d.id = ((ptr, some err), log1))
    (hnf : stringsContains err "not found" = false) :
    ∃ rest, resourceReadContentType env c log d
        = (.returned (some ("error finding content type with ID " ++ rest)), d, log1) ∧
      ∀ (env2 : Env) (c2 : Client) (log2 log3 : List Request) (ptr2 : Option ContentType)
        (err2 : String),
        c2.GetContentType env2 log2 d.id = ((ptr2, some err2), log3) →
        stringsContains err2 "not found" = false →
        resourceReadContentType env2 c2 log2 d
          = (.returned (some ("error finding content type with ID " ++ rest)), d, log3) := by
  refine ⟨"%!s(*client.ContentType=<nil>)", ?_, ?_⟩
  · have hp := GetContentType_error_ptr env c log log1 d.id err ptr hget
    subst hp
    exact resourceReadContentType_of_other_error env c log log1 d none err hget hnf
  · intro env2 c2 log2 log3 ptr2 err2 hget2 hnf2
    have hp := GetContentType_error_ptr env2 c2 log2 log3 d.id err2 ptr2 hget2
    subst hp
    exact resourceReadContentType_of_other_error env2 c2 log2 log3 d none err2 hget2 hnf2

/-- C6 at two services, one answering 500 with `internal error`, one 503 with `busy`: Read
of `article` returns one and the same message at both. -/
theorem resourceReadContentType_other_error_witness :
    ∃ rest, resourceReadContentType (scenario (always 500 "internal error")) someClient []
        article
      = (.returned (some ("error finding content type with ID " ++ rest)), article,
          [{ method := "GET", url := "https://manage.kontent.ai/v2/projects/p1/types/abc123",
             headers := [("Authorization", "Bearer secret")], body := "" }]) ∧
      resourceReadContentType (scenario (always 503 "busy")) someClient [] article
      = (.returned (some ("error finding content type with ID " ++ rest)), article,
          [{ method := "GET", url := "https://manage.kontent.ai/v2/projects/p1/types/abc123",
             headers := [("Authorization", "Bearer secret")], body := "" }]) :=
  (resourceReadContentType_other_error (scenario (always 500 "internal error")) someClient []
    _ article none "got a non 200 status code: 500 - internal error" rfl (by decide)).imp
    (fun _ h => ⟨h.1, h.2 (scenario (always 503 "busy")) someClient [] _ none
      "got a non 200 status code: 503 - busy" rfl (by decide)⟩)

/-- C8: from the same state of the service, Exists reports `true` if and only if Read
returns without an error. Every error of the fetch makes Exists report `false` (with that
error), an error of the transport among them. -/
theorem resourceExistsContentType_iff_read (env : Env) (c : Client) (log : List Request)
    (d : ResourceData) :
    ((resourceExistsContentType env c log d).1.1 = true ↔
      (resourceReadContentType env c log d).1 = .returned none) ∧
    (∀ err, (c.GetContentType env log d.id).1.2 = some err →
      (resourceExistsContentType env c log d).1 = (false, some err)) ∧
    (∀ req err, c.buildRequest env ("types/" ++ d.id) "GET" "" = .ok req →
      env.transport (log ++ [req]) = .transportError err →
      (resourceExistsContentType env c log d).1 = (false, some err)) := by
  have hex : ∀ err, (c.GetContentType env log d.id).1.2 = some err →
      (resourceExistsContentType env c log d).1 = (false, some err) := by
    intro err h
    rcases hg : c.GetContentType env log d.id with ⟨⟨p, e⟩, l⟩
    rw [hg] at h
    simp only at h
    subst h
    simp [resourceExistsContentType, hg]
  refine ⟨?_, hex, ?_⟩
  · rcases hg : c.GetContentType env log d.id with ⟨⟨p, e⟩, l⟩
    rcases GetContentType_cases env c log d.id with ⟨err, h⟩ | ⟨contentType, h⟩
    · rw [hg] at h
      simp only [Prod.mk.injEq] at h
      obtain ⟨rfl, rfl⟩ := h
      have hE := hex err (by rw [hg])
      rw [hE]
      constructor
      · intro hh; cases hh
      · intro hh
        cases hnf : stringsContains err "not found" with
        | true =>
          rw [resourceReadContentType_of_not_found env c log l d err hg hnf] at hh
          cases hh
        | false =>
          rw [resourceReadContentType_of_other_error env c log l d none err hg hnf] at hh
          cases hh
    · rw [hg] at h
      simp only [Prod.mk.injEq] at h
      obtain ⟨rfl, rfl⟩ := h
      rw [resourceReadContentType_of_fetched env c log l d contentType hg]
      simp [resourceExistsContentType, hg]
  · intro req err hb ht
    apply hex
    simp [Client.GetContentType, Client.httpRequest, hb, ht]

/-! ## Flattening of the elements -/

/-- The map the inner loop builds: under each key of the entries, the text of its value. -/
theorem foldl_insert_lookup (f : Value → Value)
    (l : List (Sigma fun _ : String => Value)) (hl : l.NodupKeys) (acc : GoMap) (k : String) :
    (l.foldl (fun (elemDto : GoMap) kv => elemDto.insert kv.1 (f kv.2)) acc).lookup k
      = match List.dlookup k l with
        | some v => some (f v)
        | none => acc.lookup k := by
  induction l generalizing acc with
  | nil => simp
  | cons kv t ih =>
    obtain ⟨k1, v1⟩ := kv
    rw [List.nodupKeys_cons] at hl
    rw [List.foldl_cons, ih hl.2]
    by_cases hk : k = k1
    · subst hk
      have hnone : List.dlookup k t = none := List.dlookup_eq_none.mpr hl.1
      simp [hnone, AList.lookup_insert]
    · rw [List.dlookup_cons_ne _ _ hk]
      cases List.dlookup k t with
      | some v => rfl
      | none => simp [AList.lookup_insert_ne hk]

/-- The outer loop of Create at a list of maps: no assertion panics, and the list built has
one flattened map for each, in order. -/
theorem create_elements_of_maps (elems acc : List GoMap) :
    (elems.map Item.map).foldl
        (fun (elements : Option (List GoMap)) tfElement =>
          match elements with
          | none => none
          | some elements =>
            match tfElement with
            | .nil => none
            | .map elem =>
              let elemDto : GoMap :=
                elem.entries.foldl
                  (fun elemDto kv => elemDto.insert kv.1 (.str kv.2.sprintV)) ∅
              some (elements ++ [elemDto]))
        (some acc)
      = some (acc ++ elems.map (fun elem =>
          elem.entries.foldl
            (fun (elemDto : GoMap) kv => elemDto.insert kv.1 (.str kv.2.sprintV)) ∅)) := by
  induction elems generalizing acc with
  | nil => simp
  | cons e t ih =>
    rw [List.map_cons, List.foldl_cons]
    simp only
    rw [ih]
    simp

/-- The content type `resourceCreateContentType` builds from a list of maps. -/
theorem create_contentType_of_maps (d : ResourceData) (elems : List GoMap)
    (h : d.elements = elems.map Item.map) :
    resourceCreateContentType.contentType d = some
      { Id := "", Name := d.name, CodeName := d.codename,
        Elements := elems.map (fun elem =>
          elem.entries.foldl
            (fun (elemDto : GoMap) kv => elemDto.insert kv.1 (.str kv.2.sprintV)) ∅) } := by
  have he := create_elements_of_maps elems []
  simp only [List.nil_append] at he
  simp only [resourceCreateContentType.contentType, resourceCreateContentType.elements, h, he]

/-- The content type `resourceUpdateContentType` builds from a list of maps. -/
theorem update_contentType_of_maps (d : ResourceData) (elems : List GoMap)
    (h : d.elements = elems.map Item.map) :
    resourceUpdateContentType.contentType d = some
      { Id := d.id, Name := d.name, CodeName := d.codename,
        Elements := elems.map (fun elem =>
          elem.entries.foldl
            (fun (elemDto : GoMap) kv => elemDto.insert kv.1 (.str kv.2.sprintV)) ∅) } := by
  have he := create_elements_of_maps elems []
  simp only [List.nil_append] at he
  simp only [resourceUpdateContentType.contentType, resourceUpdateContentType.elements, h, he]

/-- The hook `resourceCreateContentType` sends what `NewContentType` sends for the content type it
has built. -/
theorem resourceCreateContentType_log (env : Env) (c : Client) (log : List Request)
    (d : ResourceData) (ct : ContentType)
    (hct : resourceCreateContentType.contentType d = some ct) :
    (resourceCreateContentType env c log d).2.2 = (c.NewContentType env log ct).2 ∧
    (resourceCreateContentType env c log d).1
      = (match (c.NewContentType env log ct).1 with
        | .error err => .returned (some err)
        | .ok _ => .returned none) := by
  unfold resourceCreateContentType
  simp only [hct]
  rcases c.NewContentType env log ct with ⟨r, l⟩
  cases r <;> exact ⟨rfl, rfl⟩

/-- C9 as stated fails: at a configured list whose second element is the nil value, the type
assertion of the loop panics; Create builds no content type and sends nothing, and so does
Update. -/
theorem resourceCreateContentType_panics_at_nil_element :
    resourceCreateContentType.contentType nilElementConfig = none ∧
    resourceCreateContentType (scenario (always 200 "abc123")) someClient [] nilElementConfig
      = (.panicked assertionPanic, nilElementConfig, []) ∧
    resourceUpdateContentType (scenario (always 200 "abc123")) someClient [] nilElementConfig
      = (.panicked assertionPanic, nilElementConfig, []) :=
  ⟨rfl, rfl, rfl⟩

/-- The element at a position of the flattened list: under each key the text of the value
the configured element has there. -/
theorem flattened_getElem_lookup (elems : List GoMap) (i : Nat)
    (h1 : i < (elems.map (fun (elem : GoMap) =>
      elem.entries.foldl
        (fun (elemDto : GoMap) kv => elemDto.insert kv.1 (.str kv.2.sprintV)) ∅)).length)
    (h2 : i < elems.length) (k : String) :
    ((elems.map (fun (elem : GoMap) =>
        elem.entries.foldl
          (fun (elemDto : GoMap) kv => elemDto.insert kv.1 (.str kv.2.sprintV)) ∅))[i]).lookup k
      = (elems[i].lookup k).map (fun v => Value.str v.sprintV) := by
  simp only [List.getElem_map]
  rw [foldl_insert_lookup (fun v => Value.str v.sprintV) _ elems[i].nodupKeys]
  show _ = Option.map _ (List.dlookup k elems[i].entries)
  cases List.dlookup k elems[i].entries <;> simp

/-- C9, as the code has it: when every entry of the configured list is a map, Create builds
a content type `ct` and hands it to `NewContentType`: what Create sends is what
`NewContentType` sends for `ct`, at most one `POST types` whose body is the encoding of `ct`,
and exactly that `POST` when `ct` can be encoded and the request can be built. The element
list of `ct` is as long as the configured list; its element at each position has exactly the
keys of the configured element at that position, and under each key the text
`fmt.Sprintf("%v", v)` of the configured value `v`, which for a string is the string itself.
Update builds a content type with the same element list and hands it to
`UpdateContentType`; a `POST` that Update sends has the encoding of that content type as
its body. -/
theorem create_elements_flattened (env : Env) (c : Client) (log : List Request)
    (d : ResourceData) (elems : List GoMap) (h : d.elements = elems.map Item.map) :
    ∃ ct ct2,
      (resourceCreateContentType.contentType d = some ct ∧
        ct.Id = "" ∧ ct.Name = d.name ∧ ct.CodeName = d.codename) ∧
      ((resourceCreateContentType env c log d).2.2 = (c.NewContentType env log ct).2 ∧
        (resourceCreateContentType env c log d).1
          = (match (c.NewContentType env log ct).1 with
            | .error err => .returned (some err)
            | .ok _ => .returned none) ∧
        ((resourceCreateContentType env c log d).2.2 = log ∨
          ∃ post, (resourceCreateContentType env c log d).2.2 = log ++ [post] ∧
            post.method = "POST" ∧ post.url = c.requestPath "types" ∧
            env.encodeContentType ct = .ok post.body) ∧
        (∀ buf, env.encodeContentType ct = .ok buf →
          env.newRequestErr "POST" (c.requestPath "types") = none →
          ∃ post, (resourceCreateContentType env c log d).2.2 = log ++ [post] ∧
            post.method = "POST" ∧ post.url = c.requestPath "types" ∧ post.body = buf)) ∧
      (ct.Elements.length = elems.length ∧
        ∀ (i : Nat) (h1 : i < ct.Elements.length) (h2 : i < elems.length) (k : String),
          (k ∈ ct.Elements[i] ↔ k ∈ elems[i]) ∧
          (ct.Elements[i]).lookup k = (elems[i].lookup k).map (fun v => Value.str v.sprintV) ∧
          (∀ s, elems[i].lookup k = some (.str s) →
            (ct.Elements[i]).lookup k = some (.str s))) ∧
      (resourceUpdateContentType.contentType d = some ct2 ∧
        ct2.Elements = ct.Elements ∧ ct2.Id = d.id ∧ ct2.Name = d.name ∧
        ct2.CodeName = d.codename ∧
        (resourceUpdateContentType env c log d).2.2 = (c.UpdateContentType env log ct2).2 ∧
        (resourceUpdateContentType env c log d).1
          = .returned (c.UpdateContentType env log ct2).1.1 ∧
        ∀ del post, (resourceUpdateContentType env c log d).2.2 = log ++ [del, post] →
          post.method = "POST" ∧ env.encodeContentType ct2 = .ok post.body) := by
  have hc := create_contentType_of_maps d elems h
  have hu := update_contentType_of_maps d elems h
  have hcl := resourceCreateContentType_log env c log d _ hc
  have hul := resourceUpdateContentType_log env c log d _ hu
  refine ⟨_, _, ⟨hc, rfl, rfl, rfl⟩, ⟨hcl.1, hcl.2, ?_, ?_⟩, ⟨?_, ?_⟩,
    ⟨hu, rfl, rfl, rfl, rfl, hul.1, hul.2, ?_⟩⟩
  · rw [hcl.1]
    exact NewContentType_sent env c log _
  · intro buf he hn
    rw [hcl.1]
    exact NewContentType_sent_of_accepted env c log _ buf he hn
  · simp
  · intro i h1 h2 k
    have hlook := flattened_getElem_lookup elems i h1 h2 k
    refine ⟨?_, hlook, ?_⟩
    · rw [← AList.lookup_isSome, ← AList.lookup_isSome, hlook]
      simp
    · intro s hs
      rw [hlook, hs]
      rfl
  · intro del post hlog
    rw [hul.1] at hlog
    rcases UpdateContentType_sent env c log
        { Id := d.id, Name := d.name, CodeName := d.codename,
          Elements := elems.map (fun elem =>
            elem.entries.foldl
              (fun (elemDto : GoMap) kv => elemDto.insert kv.1 (.str kv.2.sprintV)) ∅) }
      with h0 | ⟨del1, h1, -⟩ | ⟨del1, post1, dresp, h2, -, -, -, -, hpm, -, hpe⟩
    · rw [h0] at hlog
      have := congrArg List.length hlog
      simp at this
    · rw [h1] at hlog
      have := congrArg List.length hlog
      simp at this
    · rw [h2] at hlog
      have hpost : post1 = post := by
        have := List.append_cancel_left hlog
        simp only [List.cons.injEq, and_true] at this
        exact this.2
      subst hpost
      exact ⟨hpm, hpe⟩

/-- C9 at `article` and a service that answers 200: Create builds a content type with one
element and sends one `POST`, and Update builds a content type with the same elements. -/
theorem create_elements_flattened_witness :
    ∃ ct ct2,
      resourceCreateContentType.contentType article = some ct ∧
      ct.Elements.length = [titleElement].length ∧
      (∃ post, (resourceCreateContentType (scenario (always 200 "abc123")) someClient []
          article).2.2 = [] ++ [post] ∧ post.method = "POST" ∧
        post.url = someClient.requestPath "types" ∧ post.body = "") ∧
      resourceUpdateContentType.contentType article = some ct2 ∧
      ct2.Elements = ct.Elements :=
  (create_elements_flattened (scenario (always 200 "abc123")) someClient [] article
    [titleElement] rfl).imp (fun _ h0 => h0.imp (fun _ h =>
      ⟨h.1.1, h.2.2.1.1, h.2.1.2.2.2 "" (congrArg Except.ok h.1.2.1) rfl, h.2.2.2.1, h.2.2.2.2.1⟩))

end Kontent
